import Mathlib

/-!
Shallow embedding of the clause risk-detection and redline pipeline of the
clause-wise-landing repository: the rule-based analyzer, the rule/AI result
merger, the span locator, flag normalization, the redline word-diff builder,
the moderation gate and the OpenAI adapter's retry/fallback orchestration.
Strings are modelled as `List Char`; JavaScript string primitives
(`toLowerCase`, `indexOf`, `trim`, `substring`, `split`) are embedded as
executable list functions.
-/

namespace ClauseWise

/-- Severity enum `low | medium | high` shared by all flag shapes. -/
inductive Severity where
  | low
  | medium
  | high
deriving DecidableEq, Repr, BEq

/-- The `rank` table `\x7b low: 0, medium: 1, high: 2 \x7d` used by the merge code. -/
def sevRank : Severity → Nat
  | .low => 0
  | .medium => 1
  | .high => 2

/-- Maximum of two severities by rank (spec-side notion of "higher severity"). -/
def sevMax (a b : Severity) : Severity :=
  if sevRank a ≥ sevRank b then a else b

/-- JS `toLowerCase` modelled per character. -/
def toLowerL (l : List Char) : List Char := l.map Char.toLower

/-- JS `trim`: whitespace stripped from both ends. -/
def trimL (l : List Char) : List Char :=
  ((l.dropWhile Char.isWhitespace).reverse.dropWhile Char.isWhitespace).reverse

/-- Whether `needle` is a prefix of `hay` (executable). -/
def prefixAt : List Char → List Char → Bool
  | [], _ => true
  | _ :: _, [] => false
  | a :: as, b :: bs => a == b && prefixAt as bs

/-- JS `hay.indexOf(needle)`: first index where `needle` occurs, else none. -/
def indexOfL (hay needle : List Char) : Option Nat :=
  if prefixAt needle hay then some 0
  else
    match hay with
    | [] => none
    | _ :: t => (indexOfL t needle).map (· + 1)

/-- JS `s.substring(a, b)` for `a ≤ b`: characters in `[a, b)`. -/
def sliceL (l : List Char) (a b : Nat) : List Char :=
  (l.drop a).take (b - a)

/-- Is the char one of `.`, `!`, `?` (the rule analyzer's sentence regex class). -/
def isSentencePunct (c : Char) : Bool :=
  c == '.' || c == '!' || c == '?'

/-- JS `text.split(/[.!?]+/)`: fields between maximal runs of `.!?`. -/
def splitPunct : List Char → List (List Char)
  | [] => [[]]
  | [c] => if isSentencePunct c then [[], []] else [[c]]
  | c :: d :: rest =>
    if isSentencePunct c then
      if isSentencePunct d then splitPunct (d :: rest)
      else [] :: splitPunct (d :: rest)
    else
      match splitPunct (d :: rest) with
      | [] => [[c]]
      | f :: fs => (c :: f) :: fs

/-- Decimal rendering of a Nat, as used by the summary templates. -/
def natToL (n : Nat) : List Char := (toString n).data

/-- One detected risk item as produced by the rule analyzer and the AI adapter. -/
structure Flag where
  clause : List Char
  severity : Severity
  rationale : List Char
  suggestion : List Char
deriving DecidableEq, Repr

/-- Aggregate result shape `\x7b overall_risk, summary, flags \x7d`. -/
structure RuleAnalysisResult where
  overall_risk : Severity
  summary : List Char
  flags : List Flag
deriving DecidableEq, Repr

/-- The rule analyzer's `patterns` catalog, in source order. -/
def patterns : List (List Char) :=
  ["indemn".data, "limitation of liability".data, "liability cap".data,
   "arbitration".data, "jurisdiction".data,
   "auto-renew".data, "renewal".data, "assignment".data, "confidential".data,
   "termination for convenience".data,
   "late fee".data, "interest".data, "intellectual property".data,
   "ip ownership".data, "non-solicit".data,
   "noncompete".data, "non-compete".data, "warranty".data, "as is".data,
   "force majeure".data, "governing law".data]

/-- The `severityMap` table of the rule analyzer. -/
def severityMap : List (List Char × Severity) :=
  [("indemn".data, .high), ("limitation of liability".data, .high),
   ("liability cap".data, .high), ("ip ownership".data, .high),
   ("noncompete".data, .high), ("non-compete".data, .high),
   ("arbitration".data, .medium), ("jurisdiction".data, .medium),
   ("assignment".data, .medium), ("termination for convenience".data, .medium),
   ("confidential".data, .medium), ("warranty".data, .medium),
   ("auto-renew".data, .low), ("renewal".data, .low), ("late fee".data, .low),
   ("interest".data, .low), ("force majeure".data, .low),
   ("governing law".data, .low), ("non-solicit".data, .medium),
   ("intellectual property".data, .medium), ("as is".data, .medium)]

/-- `severityMap[pattern] || 'low'`. -/
def sevFor (p : List Char) : Severity := (severityMap.lookup p).getD .low

/-- The `rationaleMap` table, keyed like `severityMap`. -/
def rationaleMap : List (List Char × List Char) :=
  [("indemn".data, "Indemnification clauses can expose you to unlimited liability for third-party claims.".data),
   ("limitation of liability".data, "Liability limitations may prevent you from recovering damages for breaches.".data),
   ("liability cap".data, "Liability caps can restrict compensation for significant losses or damages.".data),
   ("ip ownership".data, "IP ownership terms may transfer your work rights to the client permanently.".data),
   ("noncompete".data, "Non-compete clauses can restrict your ability to work with other clients.".data),
   ("non-compete".data, "Non-compete clauses can restrict your ability to work with other clients.".data),
   ("arbitration".data, "Mandatory arbitration limits your right to pursue claims in court.".data),
   ("jurisdiction".data, "Jurisdiction clauses may require disputes to be resolved in inconvenient locations.".data),
   ("assignment".data, "Assignment rights allow the client to transfer the contract without your consent.".data),
   ("termination for convenience".data, "Termination for convenience allows abrupt contract cancellation without cause.".data),
   ("confidential".data, "Confidentiality terms may be overly broad and restrict your future work.".data),
   ("warranty".data, "Warranty clauses may create ongoing obligations and liability exposure.".data),
   ("auto-renew".data, "Auto-renewal clauses can extend commitments beyond your intended timeframe.".data),
   ("renewal".data, "Renewal terms may lock you into unfavorable conditions for extended periods.".data),
   ("late fee".data, "Late fee provisions can result in additional charges for delayed payments.".data),
   ("interest".data, "Interest charges on overdue payments can accumulate significant costs.".data),
   ("force majeure".data, "Force majeure clauses define what events excuse performance delays.".data),
   ("governing law".data, "Governing law determines which jurisdiction applies its laws to disputes.".data),
   ("non-solicit".data, "Non-solicitation clauses may restrict your ability to work with the client contacts.".data),
   ("intellectual property".data, "IP clauses define ownership and usage rights for created work.".data),
   ("as is".data, "As-is provisions limit warranties and may reduce your legal protections.".data)]

/-- `rationaleMap[pattern] || default`. -/
def rationaleFor (p : List Char) : List Char :=
  (rationaleMap.lookup p).getD "This clause may require careful review.".data

/-- The `suggestionMap` table, keyed like `severityMap`. -/
def suggestionMap : List (List Char × List Char) :=
  [("indemn".data, "Negotiate mutual indemnification or cap your indemnity obligations to project value.".data),
   ("limitation of liability".data, "Request mutual liability limitations or minimum liability floors.".data),
   ("liability cap".data, "Ensure caps do not apply to your own negligence or IP infringement claims.".data),
   ("ip ownership".data, "Retain rights to pre-existing work and general methodologies developed.".data),
   ("noncompete".data, "Limit scope to direct competitors and specific time/geographic boundaries.".data),
   ("non-compete".data, "Limit scope to direct competitors and specific time/geographic boundaries.".data),
   ("arbitration".data, "Negotiate for mediation first, or mutual agreement to arbitrate.".data),
   ("jurisdiction".data, "Choose a neutral jurisdiction or your home jurisdiction for disputes.".data),
   ("assignment".data, "Require written consent for assignments or limit to corporate transactions.".data),
   ("termination for convenience".data, "Negotiate notice periods and payment for work completed plus costs.".data),
   ("confidential".data, "Define confidentiality scope clearly and include reasonable exceptions.".data),
   ("warranty".data, "Limit warranties to professional standards and exclude consequential damages.".data),
   ("auto-renew".data, "Include opt-out notice periods and right to modify terms upon renewal.".data),
   ("renewal".data, "Ensure renewal terms are subject to renegotiation and rate adjustments.".data),
   ("late fee".data, "Cap late fees at reasonable amounts and provide grace periods for payment.".data),
   ("interest".data, "Negotiate reasonable interest rates and payment plan options.".data),
   ("force majeure".data, "Ensure events include circumstances beyond your reasonable control.".data),
   ("governing law".data, "Choose laws from a jurisdiction familiar to both parties.".data),
   ("non-solicit".data, "Limit to employees you directly worked with and reasonable time periods.".data),
   ("intellectual property".data, "Clarify work-for-hire vs. licensed work and retain portfolio rights.".data),
   ("as is".data, "Request specific warranties for critical deliverables and fitness for purpose.".data)]

/-- `suggestionMap[pattern] || default`. -/
def suggestionFor (p : List Char) : List Char :=
  (suggestionMap.lookup p).getD "Consider negotiating more favorable terms.".data

/-- The ±120-char window `text.substring(max(0, i - 120), i + 120)`. -/
def contextWindow (text : List Char) (startIndex : Nat) : List Char :=
  sliceL text (startIndex - 120) (startIndex + 120)

/-- Loop body of `findClauseContext`: walk sentences tracking `charCount`. -/
def findClauseContextGo (text : List Char) (startIndex : Nat) :
    List (List Char) → Nat → List Char
  | [], _ => contextWindow text startIndex
  | s :: rest, charCount =>
    let sentenceStart := charCount
    let sentenceEnd := charCount + s.length
    if sentenceStart ≤ startIndex ∧ startIndex ≤ sentenceEnd then
      if trimL s = [] then contextWindow text startIndex else trimL s
    else
      findClauseContextGo text startIndex rest (sentenceEnd + 1)

/-- `findClauseContext`: the enclosing sentence of the match offset, or a
±120-char window when the sentence is empty or no sentence contains it. -/
def findClauseContext (text : List Char) (startIndex : Nat) : List Char :=
  findClauseContextGo text startIndex (splitPunct text) 0

/-- Clause truncation `clause.length > 240 ? clause.substring(0,237) + '...' : clause`. -/
def truncClause (clause : List Char) : List Char :=
  if clause.length > 240 then sliceL clause 0 237 ++ "...".data else clause

/-- One iteration of the rule analyzer's pattern loop: accumulated
`(flags, foundPatterns)` extended when the pattern first occurs in the text. -/
def ruleStep (source lower : List Char) (acc : List Flag × List (List Char))
    (p : List Char) : List Flag × List (List Char) :=
  match indexOfL lower (toLowerL p) with
  | none => acc
  | some idx =>
    if acc.2.contains p then acc
    else
      let clause := findClauseContext source idx
      (acc.1 ++ [{ clause := truncClause clause, severity := sevFor p,
                   rationale := rationaleFor p, suggestion := suggestionFor p }],
       p :: acc.2)

/-- Flags emitted by `runRuleAnalyzer` for a source text. -/
def ruleFlags (source : List Char) : List Flag :=
  (patterns.foldl (ruleStep source (toLowerL source)) ([], [])).1

/-- `hasHigh / hasMedium` cascade computing overall risk from a flag list. -/
def overallFromFlags (flags : List Flag) : Severity :=
  if flags.any (fun f => f.severity == .high) then .high
  else if flags.any (fun f => f.severity == .medium) then .medium
  else .low

/-- The rule analyzer's templated summary. -/
def ruleSummary (flags : List Flag) (overall : Severity) : List Char :=
  if flags.length = 0 then
    "No significant risk patterns detected. This appears to be a relatively standard agreement.".data
  else if overall = .high then
    "Found ".data ++ natToL flags.length ++ " potential issues including high-risk clauses that could significantly impact your rights and obligations.".data
  else if overall = .medium then
    "Identified ".data ++ natToL flags.length ++ " areas for review with moderate risk factors that warrant careful consideration.".data
  else
    "Detected ".data ++ natToL flags.length ++ " minor clauses that are generally standard but worth understanding.".data

/-- `runRuleAnalyzer`: scan for catalog patterns, emit one flag per first
occurrence, compute overall risk and a templated summary. -/
def runRuleAnalyzer (source_text : List Char) : RuleAnalysisResult :=
  let flags := ruleFlags source_text
  let overall_risk := overallFromFlags flags
  { overall_risk := overall_risk
    summary := ruleSummary flags overall_risk
    flags := flags }

/-! ## Result merger (analyze-contract handler, step 5a-5c) -/

/-- `s.replace(/\s+/g, ' ')`: collapse each maximal whitespace run to one space. -/
def collapseWs : List Char → List Char
  | [] => []
  | [c] => if c.isWhitespace then [' '] else [c]
  | c :: d :: rest =>
    if c.isWhitespace then
      if d.isWhitespace then collapseWs (d :: rest)
      else ' ' :: collapseWs (d :: rest)
    else c :: collapseWs (d :: rest)

/-- The de-duplication key `norm`: lowercase, collapse whitespace, first 140 chars. -/
def normKey (s : List Char) : List Char :=
  (collapseWs (toLowerL s)).take 140

/-- `pickSeverity(a, b)`: prefer `b` (the AI side) on tie or conflict. -/
def pickSeverity (a b : Severity) : Severity :=
  if sevRank b ≥ sevRank a then b else a

/-- JS `Map.get`. -/
def mapGet (m : List (List Char × Flag)) (k : List Char) : Option Flag :=
  match m with
  | [] => none
  | (k', v) :: rest => if k' = k then some v else mapGet rest k

/-- JS `Map.set`: update in place when the key exists, else append. -/
def mapSet (m : List (List Char × Flag)) (k : List Char) (v : Flag) :
    List (List Char × Flag) :=
  match m with
  | [] => [(k, v)]
  | (k', v') :: rest =>
    if k' = k then (k, v) :: rest else (k', v') :: mapSet rest k v

/-- Seeding loop: `for (const f of ruleBased.flags) byKey.set(norm(f.clause), f)`. -/
def seedMap (ruleFlagsIn : List Flag) : List (List Char × Flag) :=
  ruleFlagsIn.foldl (fun m f => mapSet m (normKey f.clause) f) []

/-- Merge of one AI flag into the accumulated `byKey` map: insert when new,
otherwise keep the longer clause, pick the higher severity (AI on tie), and
keep AI rationale/suggestion when non-empty. -/
def mergeStep (m : List (List Char × Flag)) (f : Flag) : List (List Char × Flag) :=
  match mapGet m (normKey f.clause) with
  | none => mapSet m (normKey f.clause) f
  | some prev =>
    mapSet m (normKey f.clause)
      { clause := if prev.clause.length ≥ f.clause.length then prev.clause else f.clause
        severity := pickSeverity prev.severity f.severity
        rationale := if f.rationale ≠ [] then f.rationale else prev.rationale
        suggestion := if f.suggestion ≠ [] then f.suggestion else prev.suggestion }

/-- The full `byKey` map after both loops of the merge. -/
def mergedMap (ruleFlagsIn aiFlagsIn : List Flag) : List (List Char × Flag) :=
  aiFlagsIn.foldl mergeStep (seedMap ruleFlagsIn)

/-- `Array.from(byKey.values())`: the merged, de-duplicated flag list. -/
def mergeFlags (ruleFlagsIn aiFlagsIn : List Flag) : List Flag :=
  (mergedMap ruleFlagsIn aiFlagsIn).map Prod.snd

/-! ## Span locator (`extractSpan` in `_shared/config/rules.ts`) -/

/-- The `RISK_KEYWORDS` table used by the tier-3 fallback. -/
def RISK_KEYWORDS : List (List Char) :=
  ["indemn".data, "indemnif".data, "indemnity".data,
   "liability".data, "liable".data,
   "arbitration".data, "arbitrate".data,
   "jurisdiction".data, "jurisdict".data,
   "renew".data, "renewal".data, "automatic".data,
   "assignment".data, "assign".data,
   "confidential".data, "nda".data, "non-disclosure".data,
   "warranty".data, "warrant".data, "guarantee".data,
   "force majeure".data, "act of god".data,
   "governing law".data, "applicable law".data,
   "noncompete".data, "non-compete".data, "restraint".data,
   "as is".data, "as-is".data,
   "intellectual property".data, "ip ownership".data, "copyright".data,
   "trademark".data,
   "termination for convenience".data, "terminate".data, "breach".data]

/-- Modelled from the spec: the `sbd` sentence-boundary library behind
`splitSentences` is an external dependency; the spec describes the step as
"split source into sentences", modelled here as splitting on `.!?` runs and
dropping blank fields. -/
def splitSentences (text : List Char) : List (List Char) :=
  if trimL text = [] then []
  else (splitPunct text).map trimL |>.filter (fun s => s ≠ [])

/-- `getContext`: a ±150-char window around `[start, end)`, with `...`
markers when clamped, then trimmed. -/
def getContext (source : List Char) (start endIdx : Nat) : List Char :=
  let contextStart := start - 150
  let contextEnd := min source.length (endIdx + 150)
  let context := sliceL source contextStart contextEnd
  let context := if 0 < contextStart then "...".data ++ context else context
  let context := if contextEnd < source.length then context ++ "...".data else context
  trimL context

/-- JS `s.split(/\s+/)`: fields between maximal whitespace runs. -/
def splitWsRuns : List Char → List (List Char)
  | [] => [[]]
  | [c] => if c.isWhitespace then [[], []] else [[c]]
  | c :: d :: rest =>
    if c.isWhitespace then
      if d.isWhitespace then splitWsRuns (d :: rest)
      else [] :: splitWsRuns (d :: rest)
    else
      match splitWsRuns (d :: rest) with
      | [] => [[c]]
      | f :: fs => (c :: f) :: fs

/-- Span result `\x7b start, end, context \x7d` with nullable offsets. -/
structure SpanResult where
  start : Option Nat
  endIdx : Option Nat
  context : List Char
deriving DecidableEq, Repr

/-- Tier-3 loop of `extractSpan`: first sentence containing a risk keyword
that can be relocated in the source, with up to three sentences of context. -/
def tier3Go (source : List Char) (sentences : List (List Char)) :
    Nat → List (List Char) → Option SpanResult
  | _, [] => none
  | i, s :: rest =>
    let lower := toLowerL s
    if RISK_KEYWORDS.any (fun k => (indexOfL lower (toLowerL k)).isSome) then
      match indexOfL source s with
      | some ci =>
        let ctx :=
          (if 0 < i then [sentences.getD (i - 1) []] else []) ++ [s] ++
          (if i < sentences.length - 1 then [sentences.getD (i + 1) []] else [])
        some { start := some ci, endIdx := some (ci + s.length),
               context := trimL (List.intercalate [' '] ctx) }
      | none => tier3Go source sentences (i + 1) rest
    else tier3Go source sentences (i + 1) rest

/-- `extractSpan(source, clause)`: exact case-insensitive match, then the
middle-12-words match, then the keyword-sentence fallback, else a null span
with the truncated clause as context. -/
def extractSpan (source clause : List Char) : SpanResult :=
  if source = [] ∨ clause = [] then { start := none, endIdx := none, context := [] }
  else
    let sourceNorm := toLowerL source
    let clauseNorm := toLowerL (trimL clause)
    match indexOfL sourceNorm clauseNorm with
    | some exactIndex =>
      { start := some exactIndex, endIdx := some (exactIndex + clauseNorm.length),
        context := getContext source exactIndex (exactIndex + clauseNorm.length) }
    | none =>
      let words := (splitWsRuns clauseNorm).filter (fun w => w.length > 0)
      let middleResult :=
        if words.length ≥ 12 then
          let startIdx := (words.length - 12) / 2
          let middleWords := List.intercalate [' '] ((words.drop startIdx).take 12)
          match indexOfL sourceNorm middleWords with
          | some middleIndex =>
            some { start := some middleIndex,
                   endIdx := some (middleIndex + middleWords.length),
                   context := getContext source middleIndex (middleIndex + middleWords.length) }
          | none => none
        else none
      match middleResult with
      | some r => r
      | none =>
        let sentences := splitSentences source
        match tier3Go source sentences 0 sentences with
        | some r => r
        | none =>
          { start := none, endIdx := none,
            context := if clause.length > 200 then sliceL clause 0 200 ++ "...".data else clause }

/-! ## Flag normalization (`normalizeFlag` at the rendering boundary) -/

/-- A raw flag from DB/API: every field possibly absent. -/
structure RawFlag where
  clause : Option (List Char)
  severity : Option Severity
  rationale : Option (List Char)
  suggestion : Option (List Char)
  span_start : Option Int
  span_end : Option Int
  context : Option (List Char)
  keywords : Option (List (List Char))
deriving DecidableEq, Repr

/-- A normalized flag: every field present. -/
structure NormFlag where
  clause : List Char
  severity : Severity
  rationale : List Char
  suggestion : List Char
  span_start : Option Int
  span_end : Option Int
  context : List Char
  keywords : List (List Char)
deriving DecidableEq, Repr

/-- `normalizeFlag`: default absent fields so the UI never crashes. -/
def normalizeFlag (f : RawFlag) : NormFlag :=
  { clause := f.clause.getD []
    severity := f.severity.getD .low
    rationale := f.rationale.getD []
    suggestion := f.suggestion.getD []
    span_start := f.span_start
    span_end := f.span_end
    context := f.context.getD []
    keywords := (f.keywords.getD []).filter (fun s => s ≠ []) }

/-! ## Redline generator (`api-redline` handler) -/

/-- `escapeHtml`: the five-entry character map applied to each character. -/
def escapeHtml (l : List Char) : List Char :=
  l.flatMap fun c =>
    if c = '&' then "&amp;".data
    else if c = '<' then "&lt;".data
    else if c = '>' then "&gt;".data
    else if c = Char.ofNat 34 then "&quot;".data
    else if c = Char.ofNat 39 then "&#39;".data
    else [c]

/-- Kind of a diff segment. -/
inductive DKind where
  | common
  | added
  | removed
deriving DecidableEq, Repr

/-- A diff segment: a run of tokens with its kind. -/
structure DSeg where
  toks : List (List Char)
  kind : DKind
deriving DecidableEq, Repr

/-- Modelled from the spec: `diffWords` of the external `diff` library splits
the strings into word/whitespace tokens; this is its tokenizer, grouping
maximal runs of same-class (whitespace vs non-whitespace) characters. -/
def tokenize : List Char → List (List Char)
  | [] => []
  | [c] => [[c]]
  | c :: d :: rest =>
    match tokenize (d :: rest) with
    | [] => [[c]]
    | t :: ts =>
      if d.isWhitespace == c.isWhitespace then (c :: t) :: ts
      else [c] :: t :: ts

/-- Length of a longest common subsequence of two token lists. -/
def lcsLen : List (List Char) → List (List Char) → Nat
  | [], _ => 0
  | _, [] => 0
  | x :: xs, y :: ys =>
    if x = y then lcsLen xs ys + 1
    else max (lcsLen xs (y :: ys)) (lcsLen (x :: xs) ys)
termination_by xs ys => xs.length + ys.length

/-- Modelled from the spec: the word-level diff of the external `diff`
library, as an LCS-optimal token diff emitting common / removed / added
segments in order. -/
def diffTok : List (List Char) → List (List Char) → List DSeg
  | [], [] => []
  | [], y :: ys => [⟨y :: ys, .added⟩]
  | x :: xs, [] => [⟨x :: xs, .removed⟩]
  | x :: xs, y :: ys =>
    if x = y then ⟨[x], .common⟩ :: diffTok xs ys
    else if lcsLen xs (y :: ys) ≥ lcsLen (x :: xs) ys then
      ⟨[x], .removed⟩ :: diffTok xs (y :: ys)
    else
      ⟨[y], .added⟩ :: diffTok (x :: xs) ys
termination_by xs ys => xs.length + ys.length

/-- A rendered diff segment `\x7b value, added?, removed? \x7d`. -/
structure DiffPart where
  value : List Char
  kind : DKind
deriving DecidableEq, Repr

/-- `diffWords(original, rewrite)`: tokenize both and diff the token lists. -/
def diffWords (original rewrite : List Char) : List DiffPart :=
  (diffTok (tokenize original) (tokenize rewrite)).map
    fun s => { value := s.toks.flatten, kind := s.kind }

/-- Outcome of the optional AI rewrite call in the redline handler: no key
configured, HTTP error, unusable JSON, or a parsed non-empty `rewrite`. -/
inductive RewriteAI where
  | noKey
  | httpErr
  | badParse
  | ok (rw : List Char)
deriving DecidableEq, Repr

/-- The handler's `rewrite` value: the AI rewrite when requested and
successful, the parenthetical fallback when requested and unavailable, and
the clause unchanged when AI was not requested. -/
def computeRewrite (clause suggestion : List Char) (useAI : Bool)
    (ai : RewriteAI) : List Char :=
  if useAI then
    match ai with
    | .ok rw => rw
    | _ => clause ++ [' '] ++ ['('] ++ suggestion ++ [')']
  else clause

/-- The HTML accumulation loop over the diff parts. -/
def buildHtml (parts : List DiffPart) : List Char :=
  parts.flatMap fun p =>
    match p.kind with
    | .removed => "<del>".data ++ escapeHtml p.value ++ "</del>".data
    | .added => "<ins>".data ++ escapeHtml p.value ++ "</ins>".data
    | .common => escapeHtml p.value

/-- The plain-text diff accumulation loop (`[-removed-]`, `\x7b+added+\x7d`). -/
def buildPlainDiff (parts : List DiffPart) : List Char :=
  parts.flatMap fun p =>
    match p.kind with
    | .removed => "[-".data ++ p.value ++ "-]".data
    | .added => "\x7b+".data ++ p.value ++ "+\x7d".data
    | .common => p.value

/-- Redline response `\x7b rewrite, html, plain_diff \x7d`. -/
structure RedlineResult where
  rewrite : List Char
  html : List Char
  plain_diff : List Char
deriving DecidableEq, Repr

/-- The redline handler after validation: compute the rewrite, word-diff it
against the clause, and render both outputs. -/
def redlineHandler (clause suggestion : List Char) (useAI : Bool)
    (ai : RewriteAI) : RedlineResult :=
  let rewrite := computeRewrite clause suggestion useAI ai
  let diff := diffWords clause rewrite
  { rewrite := rewrite, html := buildHtml diff, plain_diff := buildPlainDiff diff }

/-! ## Moderation gate (`ensureSafeInput`) and the analyze-contract pipeline -/

/-- Outcome of one moderation API round trip: a verdict, or a transport/API
error (non-ok HTTP status, network failure). -/
inductive ModApi where
  | ok (flagged : Bool) (categories : List (List Char × Bool))
  | err
deriving DecidableEq, Repr

/-- The flagged-category collection loop over `result.categories`. -/
def flaggedCategories (cats : List (List Char × Bool)) : List (List Char) :=
  (cats.filter (fun c => c.2)).map (fun c => c.1)

/-- Result of `ensureSafeInput`: content allowed through, or blocked with the
flagged category names (the thrown `CONTENT_BLOCKED` moderation error). -/
inductive ModVerdict where
  | allowed
  | blocked (categories : List (List Char))
deriving DecidableEq, Repr

/-- `ensureSafeInput`: skip when the provider is not openai or the API key is
missing; try the omni moderation model, fall back to the text moderation
model on error; block on a flagged verdict; fail open when both calls error. -/
def ensureSafeInput (provider : List Char) (hasKey : Bool)
    (omniCall textCall : ModApi) : ModVerdict :=
  if toLowerL provider ≠ "openai".data then .allowed
  else if ¬ hasKey then .allowed
  else
    match omniCall with
    | .ok flagged cats => if flagged then .blocked (flaggedCategories cats) else .allowed
    | .err =>
      match textCall with
      | .ok flagged cats => if flagged then .blocked (flaggedCategories cats) else .allowed
      | .err => .allowed

/-- `formatModerationMessage`: the user-facing content-blocked text. -/
def formatModerationMessage (categories : List (List Char)) : List Char :=
  "We can".data ++ [Char.ofNat 39] ++
  "t analyze this text because it triggers safety filters (categories: ".data ++
  List.intercalate ", ".data categories ++
  "). Please remove sensitive content and try again.".data

/-- Response of the analyze-contract handler's analysis phase: the 400
content-blocked response, or the 200 success payload. -/
inductive PipelineResponse where
  | contentBlocked (message : List Char)
  | success (overall_risk : Severity) (summary : List Char) (flags : List Flag)
      (flags_ai : List Flag) (flags_rule : List Flag) (aiRan aiFallbackUsed : Bool)
deriving DecidableEq, Repr

/-- Overall risk of the merge: `rank[ai] > rank[rule] ? ai : rule`. -/
def overallMax (ruleRisk aiRisk : Severity) : Severity :=
  if sevRank aiRisk > sevRank ruleRisk then aiRisk else ruleRisk

/-- Step 5 of the analyze-contract handler: when AI is requested, run the
moderation gate, then the AI analyzer, merging on success and degrading to
rule-only on failure; when not requested, pass the rule result through.
The second component counts the AI analyzer (`runAIAnalysis`) invocations. -/
def analyzeStep5 (useAI : Bool) (mod : ModVerdict)
    (aiOutcome : Option RuleAnalysisResult) (ruleBased : RuleAnalysisResult) :
    PipelineResponse × Nat :=
  if useAI then
    match mod with
    | .blocked cats => (.contentBlocked (formatModerationMessage cats), 0)
    | .allowed =>
      match aiOutcome with
      | none =>
        (.success ruleBased.overall_risk ruleBased.summary ruleBased.flags
          [] ruleBased.flags false true, 1)
      | some ai =>
        (.success (overallMax ruleBased.overall_risk ai.overall_risk)
          (if ai.summary ≠ [] then ai.summary else ruleBased.summary)
          (mergeFlags ruleBased.flags ai.flags)
          ai.flags ruleBased.flags true false, 1)
  else
    (.success ruleBased.overall_risk ruleBased.summary ruleBased.flags
      [] ruleBased.flags false false, 0)

/-! ## AI analyzer adapter (`analyzeWithOpenAI`) -/

/-- Outcome of one `callOpenAIJSON` round trip: a thrown error (transport,
HTTP, missing or invalid JSON), a parsed object failing `looksLikeSchema`,
or a conforming parsed analysis. -/
inductive CallRes where
  | err
  | bad
  | good (a : RuleAnalysisResult)
deriving DecidableEq, Repr

/-- The schema-only retry instruction appended to the user prompt. -/
def retrySuffix : List Char :=
  "\n\nIf your previous message contained anything other than JSON or did not match the schema, REPRINT JSON-ONLY that strictly conforms to the schema.".data

/-- `buildUserPrompt`: joined prompt lines, with the truncation note only
when truncation happened. -/
def buildUserPrompt (text : List Char) (truncated : Bool) : List Char :=
  List.intercalate "\n".data
    (([ "Analyze the following contract text for freelancer-relevant risks.".data,
        "Identify clauses and produce flags with severity, brief rationale, and a practical suggestion.".data,
        "Do not include any text outside JSON.".data,
        (if truncated then "NOTE: The input was truncated for length. If needed, reflect this at the end of \"summary\".".data else []),
        "--- CONTRACT TEXT START ---\n".data ++ text ++ "\n--- CONTRACT TEXT END ---".data
      ]).filter (fun l => l ≠ []))

/-- The truncation note appended to the returned summary. -/
def noteTrunc (truncated : Bool) (a : RuleAnalysisResult) : RuleAnalysisResult :=
  if truncated then
    { a with summary := trimL a.summary ++ " (Note: analysis ran on a truncated excerpt.)".data }
  else a

/-- `runAttempt(mdl)`: one call, and on a non-conforming parse exactly one
retry with the amended schema-only prompt; any other failure propagates.
Returns the result and the trace of `(model, user prompt)` calls issued. -/
def runAttempt (call : List Char → List Char → CallRes) (truncated : Bool)
    (user mdl : List Char) :
    Option RuleAnalysisResult × List (List Char × List Char) :=
  match call mdl user with
  | .err => (none, [(mdl, user)])
  | .good a => (some (noteTrunc truncated a), [(mdl, user)])
  | .bad =>
    let retryUser := user ++ retrySuffix
    match call mdl retryUser with
    | .good a => (some (noteTrunc truncated a), [(mdl, user), (mdl, retryUser)])
    | _ => (none, [(mdl, user), (mdl, retryUser)])

/-- The ordered fallback model list. -/
def fallbackModels : List (List Char) :=
  ["gpt-4o-mini".data, "gpt-4.1-2025-04-14".data]

/-- The fallback loop: try each alternate in order with the same
single-retry protocol, stopping at the first success. -/
def tryFallbacks (call : List Char → List Char → CallRes) (truncated : Bool)
    (user : List Char) :
    List (List Char) → Option RuleAnalysisResult × List (List Char × List Char)
  | [] => (none, [])
  | fb :: rest =>
    match runAttempt call truncated user fb with
    | (some a, t) => (some a, t)
    | (none, t) =>
      let r := tryFallbacks call truncated user rest
      (r.1, t ++ r.2)

/-- Model sanitation: absent or key-shaped `OPENAI_MODEL` falls back to
`gpt-4o-mini`. -/
def sanitizeModel (cfg : Option (List Char)) : List Char :=
  match cfg with
  | none => "gpt-4o-mini".data
  | some m =>
    if m = [] ∨ prefixAt "sk-".data (toLowerL m) then "gpt-4o-mini".data else m

/-- `truncated = text.length > MAX` with `MAX = 60_000`. -/
def truncFlag (text : List Char) : Bool := text.length > 60000

/-- `inputText = truncated ? text.slice(0, MAX) : text` fed to the prompt. -/
def userPromptOf (text : List Char) : List Char :=
  buildUserPrompt (if truncFlag text then text.take 60000 else text) (truncFlag text)

/-- `analyzeWithOpenAI`: provider gate, model sanitation, input truncation at
60000 chars, then the primary attempt followed by the ordered fallback loop;
an error surfaces only after the primary and every fallback failed. -/
def analyzeWithOpenAI (call : List Char → List Char → CallRes)
    (provider : List Char) (cfgModel : Option (List Char)) (text : List Char) :
    Option RuleAnalysisResult × List (List Char × List Char) :=
  if toLowerL provider ≠ "openai".data then (none, [])
  else
    match runAttempt call (truncFlag text) (userPromptOf text) (sanitizeModel cfgModel) with
    | (some a, t) => (some a, t)
    | (none, t) =>
      let r := tryFallbacks call (truncFlag text) (userPromptOf text) fallbackModels
      (r.1, t ++ r.2)

/-! ## Theorems -/

/-- Spec-side maximum severity of a flag list, defaulting to `low`. -/
def maxSeverity (flags : List Flag) : Severity :=
  flags.foldr (fun f acc => sevMax f.severity acc) .low

theorem overallFromFlags_cons (f : Flag) (rest : List Flag) :
    overallFromFlags (f :: rest) = sevMax f.severity (overallFromFlags rest) := by
  unfold overallFromFlags
  rcases hf : f.severity with _ | _ | _ <;>
    rcases hh : rest.any (fun g => g.severity == Severity.high) with _ | _ <;>
    rcases hm : rest.any (fun g => g.severity == Severity.medium) with _ | _ <;>
    simp [List.any_cons, hf, hh, hm, sevMax, sevRank] <;> decide

theorem overallFromFlags_eq_maxSeverity (fs : List Flag) :
    overallFromFlags fs = maxSeverity fs := by
  induction fs with
  | nil => rfl
  | cons f rest ih =>
    rw [overallFromFlags_cons, ih]
    rfl

/-- Claim C1: for every input text, `runRuleAnalyzer` returns an
`overall_risk` equal to the maximum severity among the flags it returns,
and returns `low` when the flag list is empty. -/
theorem rule_overall_risk_is_max_severity (source_text : List Char) :
    (runRuleAnalyzer source_text).overall_risk =
      maxSeverity (runRuleAnalyzer source_text).flags ∧
    ((runRuleAnalyzer source_text).flags = [] →
      (runRuleAnalyzer source_text).overall_risk = .low) := by
  refine ⟨overallFromFlags_eq_maxSeverity _, fun h => ?_⟩
  have hflags : ruleFlags source_text = [] := h
  show overallFromFlags (ruleFlags source_text) = .low
  rw [hflags]
  rfl

/-- Witness for C1: on the empty document the flag list is empty and the
overall risk is `low`. -/
theorem rule_overall_risk_is_max_severity_witness :
    (runRuleAnalyzer []).overall_risk = .low :=
  (rule_overall_risk_is_max_severity []).2 (by decide)

theorem mapGet_mapSet_self : ∀ (m : List (List Char × Flag)) (k : List Char) (v : Flag),
    mapGet (mapSet m k v) k = some v
  | [], k, v => by simp [mapSet, mapGet]
  | (a, b) :: rest, k, v => by
    by_cases h : a = k
    · simp [mapSet, mapGet, h]
    · simp [mapSet, mapGet, h, mapGet_mapSet_self rest k v]

theorem mapGet_mapSet_ne : ∀ (m : List (List Char × Flag)) (k k' : List Char) (v : Flag),
    k' ≠ k → mapGet (mapSet m k v) k' = mapGet m k'
  | [], k, k', v, h => by
    simp only [mapSet, mapGet]
    rw [if_neg (fun hh => h hh.symm)]
  | (a, b) :: rest, k, k', v, h => by
    by_cases hk : a = k
    · subst hk
      simp only [mapSet, if_pos rfl, mapGet]
      rw [if_neg (fun hh : a = k' => h hh.symm), if_neg (fun hh : a = k' => h hh.symm)]
    · simp only [mapSet, if_neg hk, mapGet]
      by_cases hk' : a = k'
      · rw [if_pos hk', if_pos hk']
      · rw [if_neg hk', if_neg hk', mapGet_mapSet_ne rest k k' v h]

theorem seed_untouched : ∀ (l : List Flag) (m : List (List Char × Flag)) (k : List Char),
    (∀ f ∈ l, normKey f.clause ≠ k) →
    mapGet (l.foldl (fun m f => mapSet m (normKey f.clause) f) m) k = mapGet m k
  | [], _, _, _ => rfl
  | f :: rest, m, k, h => by
    simp only [List.foldl_cons]
    rw [seed_untouched rest _ k (fun g hg => h g (List.mem_cons_of_mem _ hg)),
      mapGet_mapSet_ne _ _ _ _ (fun hk => h f (List.mem_cons_self _ _) hk.symm)]

theorem seedFold_get : ∀ (l : List Flag) (m : List (List Char × Flag)) (fr : Flag),
    (l.map (fun f => normKey f.clause)).Nodup → fr ∈ l →
    mapGet (l.foldl (fun m f => mapSet m (normKey f.clause) f) m)
      (normKey fr.clause) = some fr
  | [], _, fr, _, hfr => absurd hfr (List.not_mem_nil fr)
  | f :: rest, m, fr, hNodup, hfr => by
    rcases List.mem_cons.mp hfr with hfr' | hfr'
    · subst hfr'
      simp only [List.foldl_cons]
      have hnot : ∀ g ∈ rest, normKey g.clause ≠ normKey fr.clause := by
        intro g hg hkey
        have hmem : normKey g.clause ∈ rest.map (fun f => normKey f.clause) :=
          List.mem_map_of_mem _ hg
        rw [hkey] at hmem
        exact (List.nodup_cons.mp (by simpa using hNodup)).1 hmem
      rw [seed_untouched rest _ _ hnot, mapGet_mapSet_self]
    · exact seedFold_get rest _ fr (List.nodup_cons.mp (by simpa using hNodup)).2 hfr'

theorem seedMap_get (l : List Flag) (fr : Flag)
    (hNodup : (l.map (fun f => normKey f.clause)).Nodup) (hfr : fr ∈ l) :
    mapGet (seedMap l) (normKey fr.clause) = some fr :=
  seedFold_get l [] fr hNodup hfr

theorem sevRank_le_pickSeverity_left (a b : Severity) :
    sevRank a ≤ sevRank (pickSeverity a b) := by
  unfold pickSeverity
  split <;> omega

theorem sevRank_le_pickSeverity_right (a b : Severity) :
    sevRank b ≤ sevRank (pickSeverity a b) := by
  unfold pickSeverity
  split
  · exact Nat.le_refl _
  · omega

theorem mapGet_cons (a : List Char) (b : Flag) (rest : List (List Char × Flag))
    (k : List Char) :
    mapGet ((a, b) :: rest) k = if a = k then some b else mapGet rest k := rfl

theorem mapGet_mem_values : ∀ (m : List (List Char × Flag)) (k : List Char) (g : Flag),
    mapGet m k = some g → g ∈ m.map Prod.snd
  | [], _, g, h => Option.noConfusion h
  | (a, b) :: rest, k, g, h => by
    rw [mapGet_cons] at h
    by_cases hk : a = k
    · rw [if_pos hk] at h
      exact List.mem_cons.mpr (Or.inl (Option.some.inj h).symm)
    · rw [if_neg hk] at h
      exact List.mem_cons.mpr (Or.inr (mapGet_mem_values rest k g h))

theorem mergeStep_hit (m : List (List Char × Flag)) (f prev : Flag)
    (h : mapGet m (normKey f.clause) = some prev) :
    mergeStep m f = mapSet m (normKey f.clause)
      { clause := if prev.clause.length ≥ f.clause.length then prev.clause else f.clause
        severity := pickSeverity prev.severity f.severity
        rationale := if f.rationale ≠ [] then f.rationale else prev.rationale
        suggestion := if f.suggestion ≠ [] then f.suggestion else prev.suggestion } := by
  unfold mergeStep
  rw [h]

theorem foldl_mergeStep_untouched : ∀ (l : List Flag) (m : List (List Char × Flag))
    (k : List Char), (∀ f ∈ l, normKey f.clause ≠ k) →
    mapGet (l.foldl mergeStep m) k = mapGet m k
  | [], _, _, _ => rfl
  | f :: rest, m, k, h => by
    simp only [List.foldl_cons]
    rw [foldl_mergeStep_untouched rest _ k (fun g hg => h g (List.mem_cons_of_mem _ hg))]
    unfold mergeStep
    rcases hg : mapGet m (normKey f.clause) with _ | prev <;>
      exact mapGet_mapSet_ne _ _ _ _
        (fun hh => h f (List.mem_cons_self _ _) hh.symm)

/-- Rule-side flags sharing one de-duplication key, used in the C2
counterexample: the seeding loop's `Map.set` overwrite keeps only the last. -/
def dupRuleHigh : Flag :=
  { clause := "k".data, severity := .high, rationale := "r1".data,
    suggestion := "s1".data }

/-- The later rule flag with the same key as `dupRuleHigh` but severity low. -/
def dupRuleLow : Flag :=
  { clause := "k".data, severity := .low, rationale := "r2".data,
    suggestion := "s2".data }

/-- An AI flag with that same key and severity low. -/
def dupAILow : Flag :=
  { clause := "k".data, severity := .low, rationale := "ra".data,
    suggestion := "sa".data }

/-- Counterexample for C2 as stated: the claim quantifies over every pair of
merge inputs, but with two rule flags sharing one key the seeding loop's
overwrite drops the earlier high flag, and the merged severity (low) falls
below that input flag's severity (high) — so the merged severity is not the
higher of, nor at least, both input severities. -/
theorem merge_duplicate_key_counterexample :
    dupRuleHigh ∈ [dupRuleHigh, dupRuleLow] ∧
    dupAILow ∈ [dupAILow] ∧
    normKey dupAILow.clause = normKey dupRuleHigh.clause ∧
    ((mergeFlags [dupRuleHigh, dupRuleLow] [dupAILow]).map fun g => g.severity) =
      [.low] ∧
    sevRank Severity.low < sevRank dupRuleHigh.severity := by
  decide

/-- Claim C2 (amended): for every pair of merge inputs whose flags have
distinct de-duplication keys within each input, and every key present in a
flag of both inputs, the merged flag at that key has severity `pickSeverity`
of the two input severities — the higher of the two, hence at least both —
and `pickSeverity` chooses the AI side on ties. With duplicate keys inside
an input the seeding overwrite can lower the merged severity below an
earlier input flag's severity, as the counterexample shows. -/
theorem merge_never_downgrades (ruleFlagsIn aiFlagsIn : List Flag) (fr fa : Flag)
    (hNodupR : (ruleFlagsIn.map (fun f => normKey f.clause)).Nodup)
    (hNodupA : (aiFlagsIn.map (fun f => normKey f.clause)).Nodup)
    (hfr : fr ∈ ruleFlagsIn) (hfa : fa ∈ aiFlagsIn)
    (hkey : normKey fa.clause = normKey fr.clause) :
    (∃ g, mapGet (mergedMap ruleFlagsIn aiFlagsIn) (normKey fr.clause) = some g ∧
        g ∈ mergeFlags ruleFlagsIn aiFlagsIn ∧
        g.severity = pickSeverity fr.severity fa.severity ∧
        sevRank fr.severity ≤ sevRank g.severity ∧
        sevRank fa.severity ≤ sevRank g.severity) ∧
    (∀ a b : Severity, sevRank a ≤ sevRank b → pickSeverity a b = b) := by
  constructor
  · obtain ⟨l1, l2, hsplit⟩ := List.append_of_mem hfa
    have hNA := hNodupA
    rw [hsplit, List.map_append, List.map_cons, List.nodup_append] at hNA
    obtain ⟨hn1, hn2, hdisj⟩ := hNA
    have hfa_not_l1 : normKey fa.clause ∉ l1.map (fun f => normKey f.clause) :=
      fun hmem => hdisj hmem (List.mem_cons_self _ _)
    have hfa_not_l2 : normKey fa.clause ∉ l2.map (fun f => normKey f.clause) :=
      (List.nodup_cons.mp hn2).1
    have hl1 : ∀ f ∈ l1, normKey f.clause ≠ normKey fr.clause := by
      intro f hf hk
      exact hfa_not_l1 (by
        rw [hkey]
        exact hk ▸ List.mem_map_of_mem _ hf)
    have hl2 : ∀ f ∈ l2, normKey f.clause ≠ normKey fr.clause := by
      intro f hf hk
      exact hfa_not_l2 (by
        rw [hkey]
        exact hk ▸ List.mem_map_of_mem _ hf)
    have hseed := seedMap_get ruleFlagsIn fr hNodupR hfr
    have hm1 : mapGet (l1.foldl mergeStep (seedMap ruleFlagsIn))
        (normKey fr.clause) = some fr := by
      rw [foldl_mergeStep_untouched l1 _ _ hl1]
      exact hseed
    have hhit : mergeStep (l1.foldl mergeStep (seedMap ruleFlagsIn)) fa =
        mapSet (l1.foldl mergeStep (seedMap ruleFlagsIn)) (normKey fa.clause)
          { clause := if fr.clause.length ≥ fa.clause.length then fr.clause else fa.clause
            severity := pickSeverity fr.severity fa.severity
            rationale := if fa.rationale ≠ [] then fa.rationale else fr.rationale
            suggestion := if fa.suggestion ≠ [] then fa.suggestion else fr.suggestion } :=
      mergeStep_hit (l1.foldl mergeStep (seedMap ruleFlagsIn)) fa fr
        (by rw [hkey]; exact hm1)
    have hstep : mapGet (mergeStep (l1.foldl mergeStep (seedMap ruleFlagsIn)) fa)
        (normKey fr.clause) = some
          { clause := if fr.clause.length ≥ fa.clause.length then fr.clause else fa.clause
            severity := pickSeverity fr.severity fa.severity
            rationale := if fa.rationale ≠ [] then fa.rationale else fr.rationale
            suggestion := if fa.suggestion ≠ [] then fa.suggestion else fr.suggestion } := by
      rw [hhit, hkey]
      exact mapGet_mapSet_self _ _ _
    have hfinal : mapGet (mergedMap ruleFlagsIn aiFlagsIn) (normKey fr.clause) =
        some
          { clause := if fr.clause.length ≥ fa.clause.length then fr.clause else fa.clause
            severity := pickSeverity fr.severity fa.severity
            rationale := if fa.rationale ≠ [] then fa.rationale else fr.rationale
            suggestion := if fa.suggestion ≠ [] then fa.suggestion else fr.suggestion } := by
      unfold mergedMap
      rw [hsplit, List.foldl_append, List.foldl_cons]
      rw [foldl_mergeStep_untouched l2 _ _ hl2]
      exact hstep
    exact ⟨_, hfinal, mapGet_mem_values _ _ _ hfinal, rfl,
      sevRank_le_pickSeverity_left _ _, sevRank_le_pickSeverity_right _ _⟩
  · intro a b hab
    unfold pickSeverity
    rw [if_pos hab]

/-- Rule-side flag used in the C2 witness. -/
def mergeWitnessRule : Flag :=
  { clause := "Pay late fees".data, severity := .low,
    rationale := "r".data, suggestion := "s".data }

/-- AI-side flag used in the C2 witness: same key, higher severity. -/
def mergeWitnessAI : Flag :=
  { clause := "pay  late fees".data, severity := .high,
    rationale := [], suggestion := [] }

/-- Witness for C2: a rule flag and an AI flag sharing a key, where the AI
severity (high) survives the merge. -/
theorem merge_never_downgrades_witness :
    ∃ g, mapGet (mergedMap [mergeWitnessRule] [mergeWitnessAI])
        (normKey mergeWitnessRule.clause) = some g ∧
      g ∈ mergeFlags [mergeWitnessRule] [mergeWitnessAI] ∧
      g.severity = pickSeverity mergeWitnessRule.severity mergeWitnessAI.severity ∧
      sevRank mergeWitnessRule.severity ≤ sevRank g.severity ∧
      sevRank mergeWitnessAI.severity ≤ sevRank g.severity :=
  (merge_never_downgrades [mergeWitnessRule] [mergeWitnessAI]
    mergeWitnessRule mergeWitnessAI (by decide) (by decide) (by decide) (by decide)
    (by decide)).1

theorem prefixAt_iff : ∀ (needle hay : List Char),
    prefixAt needle hay = true ↔ ∃ t, hay = needle ++ t
  | [], hay => by simp [prefixAt]
  | a :: as, [] => by simp [prefixAt]
  | a :: as, b :: bs => by
    simp only [prefixAt, Bool.and_eq_true, beq_iff_eq]
    constructor
    · rintro ⟨rfl, h⟩
      obtain ⟨t, rfl⟩ := (prefixAt_iff as bs).mp h
      exact ⟨t, rfl⟩
    · rintro ⟨t, ht⟩
      injection ht with h1 h2
      exact ⟨h1.symm, (prefixAt_iff as bs).mpr ⟨t, h2⟩⟩

theorem take_append_cw : ∀ (l t : List Char), (l ++ t).take l.length = l
  | [], _ => rfl
  | c :: l', t => by
    simp only [List.cons_append, List.length_cons, List.take_succ_cons,
      take_append_cw l' t]

theorem indexOfL_of_split : ∀ (s needle t hay : List Char),
    hay = s ++ needle ++ t →
    ∃ i, indexOfL hay needle = some i ∧ (hay.drop i).take needle.length = needle
  | [], needle, t, hay, h => by
    have hpre : prefixAt needle hay = true :=
      (prefixAt_iff needle hay).mpr ⟨t, h⟩
    refine ⟨0, ?_, ?_⟩
    · unfold indexOfL
      rw [if_pos hpre]
    · subst h
      rw [List.drop_zero]
      exact take_append_cw needle t
  | c :: s', needle, t, hay, h => by
    subst h
    rcases hpre : prefixAt needle ((c :: s') ++ needle ++ t) with _ | _
    · obtain ⟨i, h1, h2⟩ := indexOfL_of_split s' needle t (s' ++ needle ++ t) rfl
      refine ⟨i + 1, ?_, ?_⟩
      · unfold indexOfL
        rw [if_neg (by rw [hpre]; simp)]
        show (indexOfL (s' ++ needle ++ t) needle).map (· + 1) = some (i + 1)
        rw [h1]
        rfl
      · show (((s' ++ needle ++ t).drop i).take needle.length) = needle
        exact h2
    · obtain ⟨t', ht'⟩ := (prefixAt_iff _ _).mp hpre
      refine ⟨0, ?_, ?_⟩
      · unfold indexOfL
        rw [if_pos hpre]
      · rw [List.drop_zero, ht']
        exact take_append_cw needle t'

/-- Claim C3 (amended): for a non-empty clause without leading or trailing
whitespace occurring verbatim in the source, `extractSpan` returns non-null
`start`/`end` with the source slice equal to the clause up to letter case. -/
theorem extractSpan_exact_substring (source clause : List Char)
    (hne : clause ≠ []) (htrim : trimL clause = clause)
    (hsub : ∃ s t, source = s ++ clause ++ t) :
    ∃ i, (extractSpan source clause).start = some i ∧
      (extractSpan source clause).endIdx = some (i + clause.length) ∧
      toLowerL (sliceL source i (i + clause.length)) = toLowerL clause := by
  obtain ⟨s, t, hst⟩ := hsub
  have hsource : source ≠ [] := by
    rw [hst]
    intro hh
    rcases clause with _ | ⟨c, cl⟩
    · exact hne rfl
    · simp at hh
  have hlow : toLowerL source = toLowerL s ++ toLowerL clause ++ toLowerL t := by
    rw [hst]
    simp [toLowerL]
  obtain ⟨i, h1, h2⟩ := indexOfL_of_split (toLowerL s) (toLowerL clause)
    (toLowerL t) (toLowerL source) hlow
  have hnorm : toLowerL (trimL clause) = toLowerL clause := by rw [htrim]
  have hlen : (toLowerL clause).length = clause.length := List.length_map _ _
  unfold extractSpan
  rw [if_neg (by simp [hsource, hne])]
  simp only [hnorm, h1]
  refine ⟨i, rfl, by rw [hlen], ?_⟩
  have hslice : toLowerL (sliceL source i (i + clause.length)) =
      ((toLowerL source).drop i).take clause.length := by
    unfold sliceL toLowerL
    rw [List.map_take, List.map_drop, Nat.add_sub_cancel_left]
  rw [hslice, ← hlen, h2]

/-- Clause used in the C3 witness. -/
def spanWitnessClause : List Char := "hold harmless".data

/-- Source used in the C3 witness. -/
def spanWitnessSource : List Char := "Contractor shall HOLD HARMLESS the client.".data

/-- Witness for C3: an exact verbatim substring is located with a
case-insensitively matching slice. -/
theorem extractSpan_exact_substring_witness :
    ∃ i, (extractSpan spanWitnessSource "HOLD HARMLESS".data).start = some i ∧
      (extractSpan spanWitnessSource "HOLD HARMLESS".data).endIdx =
        some (i + "HOLD HARMLESS".data.length) ∧
      toLowerL (sliceL spanWitnessSource i (i + "HOLD HARMLESS".data.length)) =
        toLowerL "HOLD HARMLESS".data :=
  extractSpan_exact_substring spanWitnessSource "HOLD HARMLESS".data
    (by decide) (by decide)
    ⟨"Contractor shall ".data, " the client.".data, by decide⟩

/-- Counterexample for C3 as stated: the clause `" c"` occurs verbatim in
`"ab c"`, but `extractSpan` searches for the trimmed clause, so the returned
span covers `"c"` only and the slice differs from the clause even up to
case. -/
theorem extractSpan_counterexample :
    (∃ s t, "ab c".data = s ++ " c".data ++ t) ∧
    (extractSpan "ab c".data " c".data).start = some 3 ∧
    (extractSpan "ab c".data " c".data).endIdx = some 4 ∧
    toLowerL (sliceL "ab c".data 3 4) ≠ toLowerL " c".data :=
  ⟨⟨"ab".data, [], by decide⟩, by decide, by decide, by decide⟩

/-- Counterexample for C4 as stated: on a raw flag with every field absent,
`normalizeFlag` defaults the clause to the empty string, so the normalized
clause is not non-empty. -/
theorem normalizeFlag_counterexample :
    (normalizeFlag
      { clause := none, severity := none, rationale := none, suggestion := none,
        span_start := none, span_end := none, context := none,
        keywords := none }).clause = [] := rfl

/-- Claim C4 (amended): for every raw flag, the normalized flag has a
severity in `\x7b low, medium, high \x7d` and non-null clause, rationale and
suggestion, with absent fields defaulted to the empty string; the clause is
non-empty whenever a non-empty clause was present in the raw flag, but
defaults to the empty string when absent. -/
theorem normalizeFlag_total (f : RawFlag) :
    ((normalizeFlag f).severity = .low ∨ (normalizeFlag f).severity = .medium ∨
      (normalizeFlag f).severity = .high) ∧
    (normalizeFlag f).clause = f.clause.getD [] ∧
    (normalizeFlag f).rationale = f.rationale.getD [] ∧
    (normalizeFlag f).suggestion = f.suggestion.getD [] ∧
    (normalizeFlag f).context = f.context.getD [] ∧
    (f.clause = none → (normalizeFlag f).clause = []) ∧
    (∀ c, f.clause = some c → c ≠ [] → (normalizeFlag f).clause ≠ []) := by
  refine ⟨?_, rfl, rfl, rfl, rfl, ?_, ?_⟩
  · rcases h : f.severity.getD .low with _ | _ | _
    · exact Or.inl h
    · exact Or.inr (Or.inl h)
    · exact Or.inr (Or.inr h)
  · intro h
    simp [normalizeFlag, h]
  · intro c hc hne
    simp [normalizeFlag, hc, hne]

/-- Witness for C4: a raw flag with only a clause present normalizes to that
clause with empty rationale and suggestion and severity `low`. -/
theorem normalizeFlag_total_witness :
    (normalizeFlag
      { clause := some "Pay on time".data, severity := none, rationale := none,
        suggestion := none, span_start := none, span_end := none,
        context := none, keywords := none }).clause ≠ [] :=
  (normalizeFlag_total
    { clause := some "Pay on time".data, severity := none, rationale := none,
      suggestion := none, span_start := none, span_end := none,
      context := none, keywords := none }).2.2.2.2.2.2
    "Pay on time".data rfl (by decide)

/-- Counterexample for C5 as stated: when no AI rewrite is requested
(`useAI = false`), the handler returns the clause unchanged instead of the
clause with the suggestion appended parenthetically. -/
theorem redline_fallback_counterexample :
    (redlineHandler "a".data "b".data false .noKey).rewrite = "a".data ∧
    "a".data ≠ "a".data ++ [' '] ++ ['('] ++ "b".data ++ [')'] :=
  ⟨rfl, by decide⟩

/-- Claim C5 (amended): when an AI rewrite is requested but unavailable (no
key, HTTP error, or unusable response), the returned rewrite is the clause
with the suggestion appended parenthetically; when no AI rewrite is
requested, the returned rewrite is the clause unchanged. -/
theorem redline_fallback_rewrite (clause suggestion : List Char) (ai : RewriteAI)
    (h : ∀ rw, ai ≠ .ok rw) :
    (redlineHandler clause suggestion true ai).rewrite =
      clause ++ [' '] ++ ['('] ++ suggestion ++ [')'] ∧
    (redlineHandler clause suggestion false ai).rewrite = clause := by
  constructor
  · show computeRewrite clause suggestion true ai = _
    unfold computeRewrite
    rcases ai with _ | _ | _ | rw
    · rfl
    · rfl
    · rfl
    · exact absurd rfl (h rw)
  · rfl

/-- Witness for C5: with AI requested but no API key configured, the rewrite
is the parenthetical fallback. -/
theorem redline_fallback_rewrite_witness :
    (redlineHandler "Pay".data "add a cap".data true .noKey).rewrite =
      "Pay".data ++ [' '] ++ ['('] ++ "add a cap".data ++ [')'] :=
  (redline_fallback_rewrite "Pay".data "add a cap".data .noKey
    (fun _ h => RewriteAI.noConfusion h)).1

/-- Concatenated text of the non-removed diff segments. -/
def restoreRewrite (parts : List DiffPart) : List Char :=
  parts.foldr (fun p acc => (if p.kind = .removed then [] else p.value) ++ acc) []

/-- Concatenated text of the non-added diff segments. -/
def restoreOriginal (parts : List DiffPart) : List Char :=
  parts.foldr (fun p acc => (if p.kind = .added then [] else p.value) ++ acc) []

/-- Non-removed tokens of a token-level diff, in order. -/
def newToks (segs : List DSeg) : List (List Char) :=
  segs.foldr (fun s acc => (if s.kind = .removed then [] else s.toks) ++ acc) []

/-- Non-added tokens of a token-level diff, in order. -/
def oldToks (segs : List DSeg) : List (List Char) :=
  segs.foldr (fun s acc => (if s.kind = .added then [] else s.toks) ++ acc) []

theorem tokenize_flatten : ∀ l : List Char, (tokenize l).flatten = l
  | [] => rfl
  | [c] => rfl
  | c :: d :: rest => by
    have ih := tokenize_flatten (d :: rest)
    simp only [tokenize]
    rcases ht : tokenize (d :: rest) with _ | ⟨t, ts⟩
    · rw [ht] at ih
      simp at ih
    · rw [ht] at ih
      show (if (d.isWhitespace == c.isWhitespace) = true then (c :: t) :: ts
            else [c] :: t :: ts).flatten = c :: d :: rest
      by_cases hc : (d.isWhitespace == c.isWhitespace) = true
      · rw [if_pos hc]
        simp only [List.flatten_cons] at ih ⊢
        rw [List.cons_append, ih]
      · rw [if_neg hc]
        simp only [List.flatten_cons] at ih ⊢
        rw [List.singleton_append, ih]

theorem newToks_diffTok : ∀ xs ys : List (List Char),
    newToks (diffTok xs ys) = ys
  | [], [] => by simp [diffTok, newToks]
  | [], y :: ys => by simp [diffTok, newToks]
  | x :: xs, [] => by simp [diffTok, newToks]
  | x :: xs, y :: ys => by
    have ih1 := fun h : x = y => newToks_diffTok xs ys
    have ih2 := fun h : ¬ x = y =>
      fun h2 : lcsLen xs (y :: ys) ≥ lcsLen (x :: xs) ys =>
        newToks_diffTok xs (y :: ys)
    have ih3 := fun h : ¬ x = y =>
      fun h2 : ¬ lcsLen xs (y :: ys) ≥ lcsLen (x :: xs) ys =>
        newToks_diffTok (x :: xs) ys
    simp only [diffTok]
    by_cases h : x = y
    · rw [if_pos h]
      simp only [newToks, List.foldr_cons] at ih1 ⊢
      rw [ih1 h]
      simp [h]
    · rw [if_neg h]
      by_cases h2 : lcsLen xs (y :: ys) ≥ lcsLen (x :: xs) ys
      · rw [if_pos h2]
        simp only [newToks, List.foldr_cons] at ih2 ⊢
        rw [ih2 h h2]
        simp
      · rw [if_neg h2]
        simp only [newToks, List.foldr_cons] at ih3 ⊢
        rw [ih3 h h2]
        simp
termination_by xs ys => xs.length + ys.length

theorem oldToks_diffTok : ∀ xs ys : List (List Char),
    oldToks (diffTok xs ys) = xs
  | [], [] => by simp [diffTok, oldToks]
  | [], y :: ys => by simp [diffTok, oldToks]
  | x :: xs, [] => by simp [diffTok, oldToks]
  | x :: xs, y :: ys => by
    have ih1 := fun h : x = y => oldToks_diffTok xs ys
    have ih2 := fun h : ¬ x = y =>
      fun h2 : lcsLen xs (y :: ys) ≥ lcsLen (x :: xs) ys =>
        oldToks_diffTok xs (y :: ys)
    have ih3 := fun h : ¬ x = y =>
      fun h2 : ¬ lcsLen xs (y :: ys) ≥ lcsLen (x :: xs) ys =>
        oldToks_diffTok (x :: xs) ys
    simp only [diffTok]
    by_cases h : x = y
    · rw [if_pos h]
      simp only [oldToks, List.foldr_cons] at ih1 ⊢
      rw [ih1 h]
      simp
    · rw [if_neg h]
      by_cases h2 : lcsLen xs (y :: ys) ≥ lcsLen (x :: xs) ys
      · rw [if_pos h2]
        simp only [oldToks, List.foldr_cons] at ih2 ⊢
        rw [ih2 h h2]
        simp
      · rw [if_neg h2]
        simp only [oldToks, List.foldr_cons] at ih3 ⊢
        rw [ih3 h h2]
        simp
termination_by xs ys => xs.length + ys.length

theorem restoreRewrite_map (segs : List DSeg) :
    restoreRewrite (segs.map fun s => { value := s.toks.flatten, kind := s.kind }) =
      (newToks segs).flatten := by
  induction segs with
  | nil => rfl
  | cons s rest ih =>
    simp only [List.map_cons, restoreRewrite, newToks, List.foldr_cons,
      List.flatten_append] at ih ⊢
    rcases hk : s.kind with _ | _ | _ <;> simp [hk, ih]

theorem restoreOriginal_map (segs : List DSeg) :
    restoreOriginal (segs.map fun s => { value := s.toks.flatten, kind := s.kind }) =
      (oldToks segs).flatten := by
  induction segs with
  | nil => rfl
  | cons s rest ih =>
    simp only [List.map_cons, restoreOriginal, oldToks, List.foldr_cons,
      List.flatten_append] at ih ⊢
    rcases hk : s.kind with _ | _ | _ <;> simp [hk, ih]

/-- Claim C6: for every original and rewrite, concatenating the text of all
non-removed segments of the word-level diff reconstructs the rewrite
exactly, and concatenating the text of all non-added segments reconstructs
the original exactly. -/
theorem redline_diff_round_trip (original rewrite : List Char) :
    restoreRewrite (diffWords original rewrite) = rewrite ∧
    restoreOriginal (diffWords original rewrite) = original := by
  unfold diffWords
  rw [restoreRewrite_map, restoreOriginal_map, newToks_diffTok, oldToks_diffTok,
    tokenize_flatten, tokenize_flatten]
  exact ⟨rfl, rfl⟩

/-- The contract text of the spec's detection scenario. -/
def c8text : List Char :=
  "This Agreement shall automatically renew for successive one-year terms... Developer agrees to indemnify and hold harmless Client...".data

set_option maxRecDepth 8000 in
/-- Counterexample for C8 as stated: the scenario text matches only the
`indemn` pattern (neither the literal `auto-renew` nor `renewal` occurs in
"automatically renew"), so detection yields exactly one flag and no
low-severity flag. -/
theorem detect_scenario_counterexample :
    (runRuleAnalyzer c8text).flags.length = 1 ∧
    ((runRuleAnalyzer c8text).flags.any fun f => f.severity == .low) = false := by
  decide

set_option maxRecDepth 8000 in
/-- Claim C8 (amended): on the scenario text, detection yields exactly one
flag, the high-severity indemnification flag, and `overall_risk` is high;
no auto-renewal flag is emitted because neither `auto-renew` nor `renewal`
occurs literally in "automatically renew". -/
theorem detect_scenario_amended :
    ((runRuleAnalyzer c8text).flags.map fun f => f.severity) = [.high] ∧
    (runRuleAnalyzer c8text).overall_risk = .high := by
  decide

/-- Claim C9: when the moderation collaborator reports `flagged = true`, the
pipeline returns the content-blocked condition carrying the flagged category
names (a response distinct from a generic error) and performs zero AI
analyzer calls. -/
theorem moderation_blocked_pipeline (cats : List (List Char × Bool))
    (textCall : ModApi) (aiOutcome : Option RuleAnalysisResult)
    (ruleBased : RuleAnalysisResult) :
    ensureSafeInput "openai".data true (.ok true cats) textCall =
      .blocked (flaggedCategories cats) ∧
    analyzeStep5 true (ensureSafeInput "openai".data true (.ok true cats) textCall)
        aiOutcome ruleBased =
      (.contentBlocked (formatModerationMessage (flaggedCategories cats)), 0) :=
  ⟨rfl, rfl⟩

/-- Claim C10: when both moderation calls fail with API errors and no
flagged verdict is reached, `ensureSafeInput` returns normally (fails open)
and the pipeline proceeds to call the AI analyzer — one AI call, and on AI
success the merged result with `aiRan = true`, neither blocked nor degraded
to rule-only. -/
theorem moderation_fail_open (aiRes ruleBased : RuleAnalysisResult) :
    ensureSafeInput "openai".data true .err .err = .allowed ∧
    (∀ aiOutcome, (analyzeStep5 true (ensureSafeInput "openai".data true .err .err)
        aiOutcome ruleBased).2 = 1) ∧
    (analyzeStep5 true (ensureSafeInput "openai".data true .err .err)
        (some aiRes) ruleBased).1 =
      .success (overallMax ruleBased.overall_risk aiRes.overall_risk)
        (if aiRes.summary ≠ [] then aiRes.summary else ruleBased.summary)
        (mergeFlags ruleBased.flags aiRes.flags)
        aiRes.flags ruleBased.flags true false := by
  refine ⟨rfl, fun aiOutcome => ?_, rfl⟩
  cases aiOutcome <;> rfl

/-- One full single-model attempt of the adapter for a given input text. -/
def attemptOf (call : List Char → List Char → CallRes) (text m : List Char) :
    Option RuleAnalysisResult × List (List Char × List Char) :=
  runAttempt call (truncFlag text) (userPromptOf text) m

/-- Claim C7: on a non-conforming parse the adapter issues exactly one retry
with the amended schema-only prompt for that model; the alternates are then
tried in the fixed order `gpt-4o-mini`, `gpt-4.1-2025-04-14` with the same
protocol, and an error is surfaced only when the configured model and every
alternate have failed. -/
theorem openai_retry_and_fallback (call : List Char → List Char → CallRes)
    (truncated : Bool) (user mdl : List Char) :
    (call mdl user = .bad →
      (runAttempt call truncated user mdl).2 =
        [(mdl, user), (mdl, user ++ retrySuffix)]) ∧
    (∀ cfgModel text,
      ((analyzeWithOpenAI call "openai".data cfgModel text).1 = none ↔
        ((attemptOf call text (sanitizeModel cfgModel)).1 = none ∧
         (attemptOf call text "gpt-4o-mini".data).1 = none ∧
         (attemptOf call text "gpt-4.1-2025-04-14".data).1 = none)) ∧
      (analyzeWithOpenAI call "openai".data cfgModel text).2 =
        (attemptOf call text (sanitizeModel cfgModel)).2 ++
        (if (attemptOf call text (sanitizeModel cfgModel)).1.isSome then []
         else (attemptOf call text "gpt-4o-mini".data).2 ++
           (if (attemptOf call text "gpt-4o-mini".data).1.isSome then []
            else (attemptOf call text "gpt-4.1-2025-04-14".data).2))) := by
  constructor
  · intro h
    simp only [runAttempt, h]
    rcases call mdl (user ++ retrySuffix) with _ | _ | a <;> rfl
  · intro cfgModel text
    have hgate : analyzeWithOpenAI call "openai".data cfgModel text =
        (match runAttempt call (truncFlag text) (userPromptOf text)
            (sanitizeModel cfgModel) with
         | (some a, t) => (some a, t)
         | (none, t) =>
           let r := tryFallbacks call (truncFlag text) (userPromptOf text) fallbackModels
           (r.1, t ++ r.2)) := by
      unfold analyzeWithOpenAI
      rw [if_neg (by decide)]
    rcases h1 : attemptOf call text (sanitizeModel cfgModel) with ⟨r1, t1⟩
    rcases h2 : attemptOf call text "gpt-4o-mini".data with ⟨r2, t2⟩
    rcases h3 : attemptOf call text "gpt-4.1-2025-04-14".data with ⟨r3, t3⟩
    have h1' : runAttempt call (truncFlag text) (userPromptOf text)
        (sanitizeModel cfgModel) = (r1, t1) := h1
    have h2' : runAttempt call (truncFlag text) (userPromptOf text)
        "gpt-4o-mini".data = (r2, t2) := h2
    have h3' : runAttempt call (truncFlag text) (userPromptOf text)
        "gpt-4.1-2025-04-14".data = (r3, t3) := h3
    rw [hgate, h1']
    rcases r1 with _ | a1 <;>
      rcases r2 with _ | a2 <;>
      rcases r3 with _ | a3 <;>
      simp [tryFallbacks, fallbackModels, h1, h2, h3, h2', h3']

/-- A provider stub whose every response parses but never conforms to the
schema. -/
def callAlwaysBad : List Char → List Char → CallRes := fun _ _ => .bad

/-- Witness for C7: with an always-non-conforming provider, one attempt
issues exactly the original call and one amended-prompt retry. -/
theorem openai_retry_and_fallback_witness :
    (runAttempt callAlwaysBad false "u".data "m".data).2 =
      [("m".data, "u".data), ("m".data, "u".data ++ retrySuffix)] :=
  (openai_retry_and_fallback callAlwaysBad false "u".data "m".data).1 rfl

end ClauseWise
